import Mathlib

/-!
Verification of the protocol engine in custom_components/twinfresh/api_v2.py
(class SikuV2Api).

The Python code manipulates packets as even-length hex strings and as lists
of 2-character uppercase hex tokens.  The embedding works at two levels:

* a hex string is modeled as its list of hex-digit values (a "nibble list",
  every entry < 16); this level is needed because the packet builder glues
  strings whose lengths need not be multiples of two (the password length
  field f-string can render to 3 or more digits);
* a token list (the parser's and checksum verifier's input, obtained from
  received bytes via bytes.hex().upper() and pairwise splitting) is modeled
  as a list of byte values (every entry < 256); a 2-character uppercase hex
  token and its numeric value determine each other, so string comparisons
  on tokens are modeled as numeric comparisons.

Strings of the host language (device id, password, speed and direction
arguments) are modeled as Lean Strings; Python str.encode("utf-8") is
modeled by flat-mapping String.utf8EncodeChar over the characters, which is
exactly the body of core's String.toUTF8.
-/

namespace Twinfresh

/-- UTF-8 encoding of a string as a list of byte values.  Mirrors Python's
str.encode("utf-8"); the definition is the body of String.toUTF8 with the
ByteArray wrapper removed so that it reduces in the kernel. -/
def utf8Bytes (s : String) : List Nat :=
  (s.data.flatMap String.utf8EncodeChar).map (fun b => b.toNat)

/-- Little-endian base-16 digits of n, with explicit fuel so the definition
is structural (the fuel n itself always suffices since n shrinks by /16). -/
def hexDigitsAux : Nat → Nat → List Nat
  | 0, _ => []
  | _ + 1, 0 => []
  | fuel + 1, n => n % 16 :: hexDigitsAux fuel (n / 16)

/-- Big-endian base-16 digits of n with no leading zeros ([] for 0); this is
how Python renders {n:x} / {n:X} before any zero padding. -/
def hexDigits (n : Nat) : List Nat := (hexDigitsAux n n).reverse

/-- Left-pad a digit list with zeros to length at least k; models the 0k
minimum-width zero padding of Python format specs such as {n:04X}. -/
def padLeft (k : Nat) (ds : List Nat) : List Nat :=
  List.replicate (k - ds.length) 0 ++ ds

/-- Regroup a nibble list into byte tokens, two digits per token; a dangling
final digit becomes its own token.  Models _hexlist followed by int(tok, 16)
on each token: _hexlist slices a hex string into 2-character pieces and, for
an odd-length string, a final 1-character piece. -/
def pairUp : List Nat → List Nat
  | a :: b :: rest => (16 * a + b) :: pairUp rest
  | [a] => [a]
  | [] => []

/-- Hex-digit list (nibble list) of a byte list: every byte renders as
exactly two digits.  Models bytes.hex() and the hex strings the packet
builder concatenates. -/
def nibblesOfBytes (bs : List Nat) : List Nat :=
  bs.flatMap (fun b => [b / 16, b % 16])

/-- SikuV2Api._checksum, lines 130-138: input a hex string (nibble list);
sum the integer values of all 2-character tokens except the first two,
render the sum via {checksum:04X} (at least four hex digits, more when the
sum exceeds 0xFFFF), and return characters [2:4] then [0:2] of that
rendering.  The result is a 4-digit nibble list (the returned hex string). -/
def checksumOfNib (nib : List Nat) : List Nat :=
  let toks := pairUp nib
  let s := (toks.drop 2).sum
  let cs := padLeft 4 (hexDigits s)
  ((cs.drop 2).take 2) ++ cs.take 2

/-- The checksum of a token list, returned as (two) byte tokens: _checksum
applied to the join of the tokens' hex renderings. -/
def checksumBytes (hexlist : List Nat) : List Nat :=
  pairUp (checksumOfNib (nibblesOfBytes hexlist))

/-- SikuV2Api._verify_checksum, lines 140-145: recompute _checksum over the
join of all tokens but the last two and compare (as a hex string) with the
concatenation of the last two tokens. -/
def verifyChecksum (hexlist : List Nat) : Bool :=
  checksumOfNib (nibblesOfBytes (hexlist.take (hexlist.length - 2)))
    == nibblesOfBytes (hexlist.drop (hexlist.length - 2))

/-- SikuV2Api._login_packet, lines 151-164, as a nibble list:
PACKET_PREFIX "FDFD" + PACKET_PROTOCOL_TYPE "02" + PACKET_SIZE_ID "10"
+ id UTF-8 hex + password length rendered via {len(password):02x} (the
CHARACTER count of the password, zero-padded to at least two hex digits)
+ password UTF-8 hex.  Note there is no id length field, and .upper() is
the identity at the numeric level. -/
def loginNibbles (idnum password : String) : List Nat :=
  nibblesOfBytes [0xFD, 0xFD, 0x02, 0x10]
    ++ nibblesOfBytes (utf8Bytes idnum)
    ++ padLeft 2 (hexDigits password.length)
    ++ nibblesOfBytes (utf8Bytes password)

/-- Login part of the packet as byte tokens. -/
def loginTokens (idnum password : String) : List Nat :=
  pairUp (loginNibbles idnum password)

/-- SikuV2Api._build_packet, lines 166-172, as a nibble list: login part,
function code, payload, then the _checksum of everything so far appended.
The function code and payload are hex strings in the source; all call sites
pass whole-byte strings, so they are taken here as byte lists. -/
def buildPacketNibbles (idnum password : String) (func : Nat) (data : List Nat) :
    List Nat :=
  let body := loginNibbles idnum password
    ++ nibblesOfBytes [func] ++ nibblesOfBytes data
  body ++ checksumOfNib body

/-- The built packet as byte tokens: the wire bytes sent by _send_command
(bytes.fromhex), equivalently the token list a receiver obtains back from
them via bytes.hex().upper() and 2-character splitting. -/
def packetTokens (idnum password : String) (func : Nat) (data : List Nat) :
    List Nat :=
  pairUp (buildPacketNibbles idnum password func data)

/-- Error outcomes of SikuV2Api._parse_response, lines 241-328.  The first
five are the bare Exceptions raised by the explicit checks; indexErr is an
uncaught Python IndexError from an out-of-range hexlist[start] access (the
surrounding try only catches KeyError). -/
inductive ParseErr where
  | badMagic
  | badProtocolType
  | badResultFunction
  | changeFuncTodo
  | highByteTodo
  | indexErr
deriving DecidableEq, Repr

deriving instance DecidableEq for Except

/-- Header phase of _parse_response, lines 245-269: check the 2-token
prefix FDFD (string comparison on the join of the first two tokens, so a
short list also fails this check), check the protocol type token 02, then
skip the id block and the password block by reading a declared length at
the cursor and advancing past it.  Returns the index of the result-function
byte.  Reading a token out of range is an uncaught IndexError. -/
def headerStart (hexlist : List Nat) : Except ParseErr Nat :=
  if hexlist.take 2 ≠ [0xFD, 0xFD] then .error .badMagic
  else if 2 < hexlist.length then
    if hexlist.getD 2 0 ≠ 0x02 then .error .badProtocolType
    else if 3 < hexlist.length then
      let s1 := 4 + hexlist.getD 3 0
      if s1 < hexlist.length then
        .ok (s1 + 1 + hexlist.getD s1 0)
      else .error .indexErr
    else .error .indexErr
  else .error .indexErr

/-- Field loop of _parse_response, lines 279-323: while the cursor is below
len - 2, dispatch on the token at the cursor.  RETURN_CHANGE_FUNC FC and
RETURN_HIGH_BYTE FF raise; RETURN_INVALID FD records the next token with an
empty value; RETURN_VALUE_SIZE FE reads a size, a command, then slices that
many value tokens (a Python slice, clamped at the end of the list, never an
error) and reverses their order; any other token is a plain command whose
value is the single next token.  The loop guard keeps every direct index
i+1 / i+2 in range, so the loop itself never raises IndexError.  The dict
update data.update({cmd: value}) is modeled by appending to an update log;
lookups later take the last binding.  Values are byte-token lists. -/
def parseFields (hexlist : List Nat) (i : Nat) (acc : List (Nat × List Nat)) :
    Except ParseErr (List (Nat × List Nat)) :=
  if h : i < hexlist.length - 2 then
    let p := hexlist.getD i 0
    if p = 0xFC then .error .changeFuncTodo
    else if p = 0xFD then
      parseFields hexlist (i + 2) (acc ++ [(hexlist.getD (i + 1) 0, [])])
    else if p = 0xFE then
      let sz := hexlist.getD (i + 1) 0
      let cmd := hexlist.getD (i + 2) 0
      let value := ((hexlist.drop (i + 3)).take sz).reverse
      parseFields hexlist (i + 3 + sz) (acc ++ [(cmd, value)])
    else if p = 0xFF then .error .highByteTodo
    else parseFields hexlist (i + 2) (acc ++ [(p, [hexlist.getD (i + 1) 0])])
  else .ok acc
termination_by hexlist.length - i
decreasing_by all_goals omega

/-- SikuV2Api._parse_response, lines 241-328: header phase, then the
result-function check (reading that byte can be an uncaught IndexError),
then the field loop starting right after the function byte. -/
def parseResponse (hexlist : List Nat) : Except ParseErr (List (Nat × List Nat)) :=
  match headerStart hexlist with
  | .error e => .error e
  | .ok s =>
    if s < hexlist.length then
      if hexlist.getD s 0 ≠ 0x06 then .error .badResultFunction
      else parseFields hexlist (s + 1) []
    else .error .indexErr

/-- Lookup in the parsed field map: Python dict semantics on the update
log, i.e. the value of the last update with the given key. -/
def dlookup (d : List (Nat × List Nat)) (k : Nat) : Option (List Nat) :=
  (d.reverse.find? (fun p => p.1 == k)).map (fun p => p.2)

/-- Modelled from the spec: the preset-mode names PRESET_MODE_AUTO,
PRESET_MODE_SLEEP and PRESET_MODE_PARTY imported from the repository's
const.py, which is not in the sources; the spec says only that the mode
table maps into the set {auto, sleep, party}, so the three values are
modeled as a three-element inductive type. -/
inductive FanMode where
  | auto
  | sleep
  | party
deriving DecidableEq, Repr

/-- MODES dict literal, api_v2.py lines 51-58: keys are the hex strings
MODE_OFF = "01", MODE_SLEEP = "01", MODE_PARTY = "02" (modeled as the byte
lists those strings render); the duplicate key "01" means the later
MODE_SLEEP binding overwrites the MODE_OFF one, modeled by keeping all
three literal entries and giving lookups the last matching entry. -/
def MODES : List (List Nat × FanMode) :=
  [([0x01], .auto), ([0x01], .sleep), ([0x02], .party)]

/-- Lookup in the MODES dict (last literal entry with the key wins). -/
def modeLookup (v : List Nat) : Option FanMode :=
  (MODES.reverse.find? (fun p => p.1 == v)).map (fun p => p.2)

/-- Uppercase hex digit character, as produced by str.upper() over a hex
rendering. -/
def hexDigitChar (n : Nat) : Char :=
  if n < 10 then Char.ofNat (48 + n) else Char.ofNat (55 + n)

/-- Uppercase hex string of a byte list: the string form of a parsed field
value (a join of uppercase 2-character tokens), used where the code
compares such values against string table keys. -/
def hexStr (bs : List Nat) : String :=
  String.mk (bs.flatMap (fun b => [hexDigitChar (b / 16), hexDigitChar (b % 16)]))

/-- Lookup in a string-keyed table with Python dict semantics; const.py's
DIRECTIONS dict has unique keys, for which first match and dict lookup
agree. -/
def dirLookup (dirs : List (String × String)) (k : String) : Option String :=
  (dirs.find? (fun p => p.1 == k)).map (fun p => p.2)

/-- Error outcome of _translate_response: the uncaught ValueError raised by
int(value, 16) on a non-numeral (empty) value string; the except clauses
around each lookup only catch KeyError. -/
inductive TransErr where
  | valueErr
deriving DecidableEq, Repr

/-- Status record returned by _translate_response (dict with the fixed keys
is_on, speed, oscillating, direction, mode). -/
structure FanState where
  is_on : Bool
  speed : String
  oscillating : Bool
  direction : Option String
  mode : FanMode
deriving DecidableEq, Repr

/-- Integer value of a hex string (byte-token list): int(value, 16) for the
value strings the parser produces, i.e. base-256 on the bytes.  Only
meaningful for nonempty values; int("", 16) raises and is handled at the
call site. -/
def hexVal (bs : List Nat) : Nat :=
  bs.foldl (fun a b => 256 * a + b) 0

/-- Decimal rendering via the Python format spec {n:02}: at least two
digits, zero-padded on the left (three or more digits when n is 100 or
larger). -/
def decPad2 (n : Nat) : String :=
  if n < 10 then "0" ++ toString n else toString n

/-- SikuV2Api._translate_response, lines 212-239, parameterized by the
DIRECTIONS table and the DIRECTION_ALTERNATING name, both of which live in
the repository's const.py, which is not in the sources (the spec says only
that it is a fixed table of raw codes to domain names, one of which is the
alternating one).  is_on compares the on/off field "01" with POWER_ON "01"
(byte list [1]); speed applies int(value, 16) — an uncaught ValueError on
an empty value, since the surrounding try only catches KeyError — and
renders via {:02}; direction looks the value up in DIRECTIONS with both a
missing field and a missing table entry degrading to (None, True), and
oscillating is whether the name equals the alternating name; mode looks the
value up in MODES, degrading to auto.  Python computes is_on, then speed
(the only step that can raise), then direction, then mode; the remaining
steps are total, so computing them before returning is equivalent. -/
def translateResponse (dirs : List (String × String)) (alt : String)
    (d : List (Nat × List Nat)) : Except TransErr FanState :=
  let isOn := dlookup d 0x01 == some [0x01]
  let speedE : Except TransErr String :=
    match dlookup d 0x02 with
    | none => .ok "00"
    | some bs => if bs.isEmpty then .error .valueErr else .ok (decPad2 (hexVal bs))
  let dirPair : Option String × Bool :=
    match dlookup d 0xB7 with
    | none => (none, true)
    | some bs =>
      match dirLookup dirs (hexStr bs) with
      | none => (none, true)
      | some name => (some name, name == alt)
  let mode :=
    match dlookup d 0x07 with
    | none => FanMode.auto
    | some bs => (modeLookup bs).getD FanMode.auto
  match speedE with
  | .error e => .error e
  | .ok sp => .ok ⟨isOn, sp, dirPair.2, dirPair.1, mode⟩

/-- ValueError raised by the speed and direction methods on a domain value
outside the fixed tables (the spec's ValidationError). -/
inductive VErr where
  | badSpeed
  | badDirection
deriving DecidableEq, Repr

/-- SikuV2Api.speed, lines 90-96, up to its first transport use: validate
the argument against FAN_SPEEDS (from const.py, not in the sources, so the
table is a parameter) and either raise before any socket is touched or
return the command hex string that _send_command would transmit. -/
def speedRequest (fanSpeeds : List String) (speed : String) : Except VErr String :=
  if fanSpeeds.contains speed then .ok (String.toUpper ("02" ++ speed))
  else .error .badSpeed

/-- SikuV2Api.direction, lines 98-109, up to its first transport use: a
value found among DIRECTIONS' values is replaced by the first key mapping
to it (list(keys)[list(values).index(direction)]); the result must then be
a key of DIRECTIONS or the method raises before any socket is touched;
otherwise it returns the command hex string that _send_command would
transmit. -/
def dirRequest (dirs : List (String × String)) (direction : String) :
    Except VErr String :=
  let d2 := match dirs.find? (fun p => p.2 == direction) with
    | some p => p.1
    | none => direction
  if (dirs.map (fun p => p.1)).contains d2 then
    .ok (String.toUpper ("B7" ++ d2))
  else .error .badDirection

/-- Modelled from the spec: the header layout the spec claims the encoder
emits — prefix, protocol type, fixed size-class marker, then an id length
byte followed by the id's UTF-8 bytes, then a password length byte equal
to the password's UTF-8 byte count followed by the password's UTF-8 bytes
(spec section 4.2 step 2 and the section 8.6 example). -/
def specLoginTokens (idnum password : String) : List Nat :=
  [0xFD, 0xFD, 0x02, 0x10, (utf8Bytes idnum).length] ++ utf8Bytes idnum
    ++ [(utf8Bytes password).length] ++ utf8Bytes password

/-- Modelled from the spec: the checksum value the spec claims — the sum of
all byte values except the leading two, truncated to 16 bits, output as
[sum AND 0xFF][sum SHR 8] (spec section 4.1). -/
def specChecksumBytes (hexlist : List Nat) : List Nat :=
  let s := ((hexlist.drop 2).sum) % 65536
  [s % 256, s / 256]

/-! Helper lemmas about the embedding. -/

lemma nibblesOfBytes_append (a b : List Nat) :
    nibblesOfBytes (a ++ b) = nibblesOfBytes a ++ nibblesOfBytes b := by
  simp [nibblesOfBytes]

lemma pairUp_nib_append (bs r : List Nat) :
    pairUp (nibblesOfBytes bs ++ r) = bs ++ pairUp r := by
  induction bs with
  | nil => simp [nibblesOfBytes]
  | cons b t ih =>
    have hb : 16 * (b / 16) + b % 16 = b := Nat.div_add_mod b 16
    show pairUp (b / 16 :: b % 16 :: (nibblesOfBytes t ++ r)) = b :: (t ++ pairUp r)
    rw [pairUp, ih, hb]

lemma pairUp_nib (bs : List Nat) : pairUp (nibblesOfBytes bs) = bs := by
  have h := pairUp_nib_append bs []
  simpa [pairUp] using h

lemma hexDigitsAux_eq_digits : ∀ fuel n, n ≤ fuel → hexDigitsAux fuel n = Nat.digits 16 n := by
  intro fuel
  induction fuel with
  | zero => intro n h; interval_cases n; simp [hexDigitsAux]
  | succ f ih =>
    intro n h
    cases n with
    | zero => simp [hexDigitsAux]
    | succ m =>
      rw [show hexDigitsAux (f + 1) (m + 1) = (m + 1) % 16 :: hexDigitsAux f ((m + 1) / 16)
            from rfl,
        Nat.digits_def' (by norm_num : 1 < 16) (Nat.succ_pos m)]
      rw [ih _ (by
        have h2 := Nat.div_lt_self (Nat.succ_pos m) (by norm_num : 1 < 16)
        omega)]

lemma hexDigits_eq (n : Nat) : hexDigits n = (Nat.digits 16 n).reverse := by
  rw [hexDigits, hexDigitsAux_eq_digits n n le_rfl]

lemma hexDigits_lt16 (n : Nat) : ∀ x ∈ hexDigits n, x < 16 := by
  intro x hx
  rw [hexDigits_eq, List.mem_reverse] at hx
  exact Nat.digits_lt_base (by norm_num) hx

lemma lenField_eq (n : Nat) (h : n < 256) :
    padLeft 2 (hexDigits n) = [n / 16, n % 16] := by
  rw [hexDigits_eq]
  rcases Nat.eq_zero_or_pos n with h0 | h0
  · subst h0; simp [padLeft]
  · rw [Nat.digits_def' (by norm_num : 1 < 16) h0]
    rcases Nat.lt_or_ge n 16 with h16 | h16
    · have hd : n / 16 = 0 := Nat.div_eq_of_lt h16
      simp [hd, padLeft, Nat.mod_eq_of_lt h16]
    · have hpos : 0 < n / 16 := Nat.div_pos h16 (by norm_num)
      rw [Nat.digits_def' (by norm_num : 1 < 16) hpos]
      have hd : n / 16 / 16 = 0 := by omega
      have hb : n / 16 < 16 := by omega
      rw [hd]
      simp [padLeft, Nat.mod_eq_of_lt hb]

lemma checksumOfNib_length (nib : List Nat) : (checksumOfNib nib).length = 4 := by
  unfold checksumOfNib
  have h4 : 4 ≤ (padLeft 4 (hexDigits ((pairUp nib).drop 2).sum)).length := by
    simp [padLeft]; omega
  simp only [List.length_append, List.length_take, List.length_drop]
  omega

lemma checksumOfNib_lt16 (nib : List Nat) : ∀ x ∈ checksumOfNib nib, x < 16 := by
  intro x hx
  unfold checksumOfNib at hx
  rw [List.mem_append] at hx
  have hsub : x ∈ padLeft 4 (hexDigits ((pairUp nib).drop 2).sum) := by
    rcases hx with hx | hx
    · exact List.drop_subset 2 _ (List.take_subset 2 _ hx)
    · exact List.take_subset 2 _ hx
  rw [padLeft, List.mem_append] at hsub
  rcases hsub with hs | hs
  · have h0 := List.eq_of_mem_replicate hs
    omega
  · exact hexDigits_lt16 _ x hs

lemma nib_pairUp_of_four (c : List Nat) (hlen : c.length = 4) (hlt : ∀ x ∈ c, x < 16) :
    nibblesOfBytes (pairUp c) = c := by
  rcases c with _ | ⟨a, _ | ⟨b, _ | ⟨x, _ | ⟨y, _ | ⟨z, t⟩⟩⟩⟩⟩ <;> simp at hlen
  have ha : a < 16 := hlt a (by simp)
  have hb : b < 16 := hlt b (by simp)
  have hx : x < 16 := hlt x (by simp)
  have hy : y < 16 := hlt y (by simp)
  simp [pairUp, nibblesOfBytes]
  omega

lemma pairUp_length_of_four (c : List Nat) (hlen : c.length = 4) :
    (pairUp c).length = 2 := by
  rcases c with _ | ⟨a, _ | ⟨b, _ | ⟨x, _ | ⟨y, _ | ⟨z, t⟩⟩⟩⟩⟩ <;> simp at hlen
  simp [pairUp]

lemma padLeft_four (s : Nat) (h : s < 65536) :
    padLeft 4 (hexDigits s) = [s / 4096, s / 256 % 16, s / 16 % 16, s % 16] := by
  rw [hexDigits_eq]
  rcases Nat.eq_zero_or_pos s with h0 | h0
  · subst h0; simp [padLeft]
  · rw [Nat.digits_def' (by norm_num : 1 < 16) h0]
    rcases Nat.lt_or_ge s 16 with hA | hA
    · have e1 : s / 16 = 0 := by omega
      rw [e1]
      simp [padLeft]
      all_goals omega
    · have p1 : 0 < s / 16 := by omega
      rw [Nat.digits_def' (by norm_num : 1 < 16) p1]
      have e16 : s / 16 / 16 = s / 256 := by omega
      rw [e16]
      rcases Nat.lt_or_ge s 256 with hB | hB
      · have e2 : s / 256 = 0 := by omega
        rw [e2]
        simp [padLeft]
        all_goals omega
      · have p2 : 0 < s / 256 := by omega
        rw [Nat.digits_def' (by norm_num : 1 < 16) p2]
        have e17 : s / 256 / 16 = s / 4096 := by omega
        rw [e17]
        rcases Nat.lt_or_ge s 4096 with hC | hC
        · have e3 : s / 4096 = 0 := by omega
          rw [e3]
          simp [padLeft]
        · have p3 : 0 < s / 4096 := by omega
          rw [Nat.digits_def' (by norm_num : 1 < 16) p3]
          have e18 : s / 4096 / 16 = 0 := by omega
          rw [e18]
          simp [padLeft]
          all_goals omega

lemma checksumBytes_of_small (toks : List Nat) (h : (toks.drop 2).sum < 65536) :
    checksumBytes toks = [(toks.drop 2).sum % 256, (toks.drop 2).sum / 256] := by
  simp only [checksumBytes, checksumOfNib, pairUp_nib]
  rw [padLeft_four _ h]
  simp [pairUp]
  constructor <;> omega

lemma getD_drop (l : List Nat) (i j : Nat) :
    (l.drop i).getD j 0 = l.getD (i + j) 0 := by
  simp [List.getD_eq_getElem?_getD, List.getElem?_drop]

lemma getD_eq_of_drop_eq (l1 l2 : List Nat) (i j : Nat)
    (h : l1.drop i = l2.drop i) (hij : i ≤ j) : l1.getD j 0 = l2.getD j 0 := by
  have h2 : (l1.drop i).getD (j - i) 0 = (l2.drop i).getD (j - i) 0 := by rw [h]
  rw [getD_drop, getD_drop, Nat.add_sub_cancel' hij] at h2
  exact h2

lemma headerStart_shape (n m : Nat) (idB pwB rest : List Nat)
    (hid : idB.length = n) (hpw : pwB.length = m) :
    headerStart (0xFD :: 0xFD :: 0x02 :: n :: (idB ++ m :: (pwB ++ rest)))
      = .ok (5 + n + m) := by
  have hlen : (0xFD :: 0xFD :: 0x02 :: n :: (idB ++ m :: (pwB ++ rest))).length
      = 5 + n + m + rest.length := by
    simp [hid, hpw]
    omega
  have hgd : (0xFD :: 0xFD :: 0x02 :: n :: (idB ++ m :: (pwB ++ rest))).getD (4 + n) 0
      = m := by
    have hstep : (idB ++ m :: (pwB ++ rest)).getD n 0 = m := by
      rw [List.getD_append_right _ _ _ _ (by omega), hid]
      simp
    rw [show (4 + n) = (n + 3) + 1 from by omega, List.getD_cons_succ,
      show (n + 3) = (n + 2) + 1 from by omega, List.getD_cons_succ,
      show (n + 2) = (n + 1) + 1 from by omega, List.getD_cons_succ,
      show (n + 1) = n + 1 from rfl, List.getD_cons_succ]
    exact hstep
  unfold headerStart
  rw [if_neg (by simp), if_pos (by omega), if_neg (by simp), if_pos (by omega)]
  simp only [List.getD_cons_succ, List.getD_cons_zero]
  rw [if_pos (by rw [hlen]; omega), hgd]
  congr 1
  omega

lemma stream_drop (n m : Nat) (idB pwB rest : List Nat)
    (hid : idB.length = n) (hpw : pwB.length = m) :
    (0xFD :: 0xFD :: 0x02 :: n :: (idB ++ m :: (pwB ++ rest))).drop (5 + n + m)
      = rest := by
  rw [show (0xFD :: 0xFD :: 0x02 :: n :: (idB ++ m :: (pwB ++ rest)))
      = ([0xFD, 0xFD, 0x02, n] ++ idB) ++ ((m :: pwB) ++ rest) from by simp]
  have hl : (([0xFD, 0xFD, 0x02, n] ++ idB) ++ (m :: pwB)).length = 5 + n + m := by
    simp [hid, hpw]
    omega
  rw [show (m :: pwB) ++ rest = (m :: pwB) ++ rest from rfl]
  rw [← List.append_assoc]
  rw [show 5 + n + m = (([0xFD, 0xFD, 0x02, n] ++ idB) ++ (m :: pwB)).length from hl.symm]
  exact List.drop_left _ _

lemma parseFields_stop (l : List Nat) (i : Nat) (acc : List (Nat × List Nat))
    (h : ¬ i < l.length - 2) : parseFields l i acc = .ok acc := by
  rw [parseFields]
  exact dif_neg h

lemma parseFields_go (l : List Nat) (i : Nat) (acc : List (Nat × List Nat))
    (h : i < l.length - 2) :
    parseFields l i acc =
      (if l.getD i 0 = 0xFC then .error .changeFuncTodo
      else if l.getD i 0 = 0xFD then
        parseFields l (i + 2) (acc ++ [(l.getD (i + 1) 0, [])])
      else if l.getD i 0 = 0xFE then
        parseFields l (i + 3 + l.getD (i + 1) 0)
          (acc ++ [(l.getD (i + 2) 0,
            ((l.drop (i + 3)).take (l.getD (i + 1) 0)).reverse)])
      else if l.getD i 0 = 0xFF then .error .highByteTodo
      else parseFields l (i + 2) (acc ++ [(l.getD i 0, [l.getD (i + 1) 0])])) := by
  rw [parseFields]
  rw [dif_pos h]

lemma drop_add (l : List Nat) (i k : Nat) : l.drop (i + k) = (l.drop i).drop k := by
  rw [List.drop_drop]

lemma parseFields_congr_aux (l1 l2 : List Nat) (hlen : l1.length = l2.length) :
    ∀ k i acc, l1.length - i ≤ k → l1.drop i = l2.drop i →
      parseFields l1 i acc = parseFields l2 i acc := by
  intro k
  induction k with
  | zero =>
    intro i acc hk hdrop
    rw [parseFields_stop _ _ _ (by omega), parseFields_stop _ _ _ (by omega)]
  | succ k ih =>
    intro i acc hk hdrop
    by_cases hg : i < l1.length - 2
    · have hg2 : i < l2.length - 2 := by omega
      have hdropAll : ∀ δ, l1.drop (i + δ) = l2.drop (i + δ) := by
        intro δ
        rw [drop_add, drop_add, hdrop]
      have e0 : l1.getD i 0 = l2.getD i 0 :=
        getD_eq_of_drop_eq _ _ _ _ hdrop le_rfl
      have e1 : l1.getD (i + 1) 0 = l2.getD (i + 1) 0 :=
        getD_eq_of_drop_eq _ _ _ _ hdrop (by omega)
      have e2 : l1.getD (i + 2) 0 = l2.getD (i + 2) 0 :=
        getD_eq_of_drop_eq _ _ _ _ hdrop (by omega)
      rw [parseFields_go l1 i acc hg, parseFields_go l2 i acc hg2,
        e0, e1, e2, hdropAll 3]
      rw [show i + 3 + l2.getD (i + 1) 0 = i + (3 + l2.getD (i + 1) 0) from by omega]
      split_ifs
      · rfl
      · exact ih (i + 2) _ (by omega) (by

          have h2 := hdropAll 2
          exact h2)
      · exact ih (i + (3 + l2.getD (i + 1) 0)) _ (by omega) (hdropAll _)
      · rfl
      · exact ih (i + 2) _ (by omega) (hdropAll 2)
    · have hg2 : ¬ i < l2.length - 2 := by omega
      rw [parseFields_stop _ _ _ hg, parseFields_stop _ _ _ hg2]

lemma parseFields_congr (l1 l2 : List Nat) (i : Nat) (acc : List (Nat × List Nat))
    (hlen : l1.length = l2.length) (hdrop : l1.drop i = l2.drop i) :
    parseFields l1 i acc = parseFields l2 i acc :=
  parseFields_congr_aux l1 l2 hlen l1.length i acc (by omega) hdrop

lemma parseFields_shape_aux (l : List Nat) :
    ∀ k i acc, l.length - i ≤ k →
      (∃ r, parseFields l i acc = .ok r) ∨
        parseFields l i acc = .error .changeFuncTodo ∨
        parseFields l i acc = .error .highByteTodo := by
  intro k
  induction k with
  | zero =>
    intro i acc hk
    exact Or.inl ⟨acc, parseFields_stop _ _ _ (by omega)⟩
  | succ k ih =>
    intro i acc hk
    by_cases hg : i < l.length - 2
    · rw [parseFields_go l i acc hg]
      split_ifs
      · exact Or.inr (Or.inl rfl)
      · exact ih (i + 2) _ (by omega)
      · exact ih (i + 3 + l.getD (i + 1) 0) _ (by omega)
      · exact Or.inr (Or.inr rfl)
      · exact ih (i + 2) _ (by omega)
    · exact Or.inl ⟨acc, parseFields_stop _ _ _ hg⟩

/-! Claim theorems. -/

/-- C3, counterexample: on an input whose byte sum .drop 2 is 65790 (at
least 0x10000), _checksum does not truncate the sum to 16 bits: the
{:04X} rendering has five digits and the [2:4]/[0:2] slices return bytes
[15, 16], not the swapped truncated sum [254, 0] claimed by the spec. -/
theorem c3_counterexample :
    checksumBytes (0 :: 0 :: List.replicate 258 255) = [15, 16] ∧
      specChecksumBytes (0 :: 0 :: List.replicate 258 255) = [254, 0] := by
  constructor
  · set_option maxRecDepth 4000 in decide
  · set_option maxRecDepth 4000 in decide

/-- C3, amended: the checksum result always has exactly two bytes, and
whenever the byte sum (all bytes but the leading two) is below 0x10000 it
equals [sum AND 0xFF][sum SHR 8]; for larger sums the code instead slices
hex digits out of the longer {:04X} rendering, so the 16-bit truncation
clause of the claim only holds below 0x10000. -/
theorem c3_checksum_formula (hexlist : List Nat) :
    (checksumBytes hexlist).length = 2 ∧
      ((hexlist.drop 2).sum < 65536 →
        checksumBytes hexlist
          = [(hexlist.drop 2).sum % 256, (hexlist.drop 2).sum / 256]) := by
  constructor
  · exact pairUp_length_of_four _ (checksumOfNib_length _)
  · intro h
    exact checksumBytes_of_small _ h

/-- C3, witness for the amended theorem at a concrete input. -/
theorem c3_witness :
    ([0, 0, 1, 2].drop 2).sum < 65536 ∧ checksumBytes [0, 0, 1, 2] = [3, 0] := by
  refine ⟨by decide, ?_⟩
  have h := (c3_checksum_formula [0, 0, 1, 2]).2 (by decide)
  simpa using h

/-- C4, counterexample: a response whose explicit-size field declares nine
value bytes while only two tokens (the checksum bytes) remain.  The claim
says this must fail as a truncated response; the code instead succeeds,
silently clamping the Python slice and consuming the checksum bytes as the
value. -/
theorem c4_counterexample :
    parseResponse [253, 253, 2, 0, 0, 6, 254, 9, 2, 170, 187]
      = .ok [(2, [187, 170])] := by
  simp [parseResponse, headerStart, parseFields]

/-- C4, amended: the field loop never raises at all for truncated extents —
it either returns a map (explicit-size values are clamped to the tokens
that remain, and the token after a plain or invalid-command code always
exists because the loop guard stops 2 short of the end) or fails with one
of the two unsupported-marker errors; the uncaught IndexError can only
come from the header phase, not from a field's declared extent. -/
theorem c4_field_loop_never_truncation_error (hexlist : List Nat) (i : Nat)
    (acc : List (Nat × List Nat)) :
    (∃ r, parseFields hexlist i acc = .ok r) ∨
      parseFields hexlist i acc = .error .changeFuncTodo ∨
      parseFields hexlist i acc = .error .highByteTodo :=
  parseFields_shape_aux hexlist hexlist.length i acc (by omega)

/-- C10: two well-formed response streams that differ only in the bytes of
their id and password blocks (same declared lengths, same prefix, protocol
type, and same remaining stream from the result-function byte on) parse to
the identical command-to-value map: the parser skips the credential blocks
by their declared lengths and never inspects their bytes. -/
theorem c10_parser_ignores_credentials (n m : Nat)
    (idB1 idB2 pwB1 pwB2 rest : List Nat)
    (h1 : idB1.length = n) (h2 : idB2.length = n)
    (h3 : pwB1.length = m) (h4 : pwB2.length = m) :
    parseResponse (0xFD :: 0xFD :: 0x02 :: n :: (idB1 ++ m :: (pwB1 ++ rest)))
      = parseResponse (0xFD :: 0xFD :: 0x02 :: n :: (idB2 ++ m :: (pwB2 ++ rest))) := by
  have hL1 : (0xFD :: 0xFD :: 0x02 :: n :: (idB1 ++ m :: (pwB1 ++ rest))).length
      = 5 + n + m + rest.length := by
    simp [h1, h3]
    omega
  have hL2 : (0xFD :: 0xFD :: 0x02 :: n :: (idB2 ++ m :: (pwB2 ++ rest))).length
      = 5 + n + m + rest.length := by
    simp [h2, h4]
    omega
  have hd1 := stream_drop n m idB1 pwB1 rest h1 h3
  have hd2 := stream_drop n m idB2 pwB2 rest h2 h4
  have hg1 : (0xFD :: 0xFD :: 0x02 :: n :: (idB1 ++ m :: (pwB1 ++ rest))).getD (5 + n + m) 0
      = rest.getD 0 0 := by
    have h := getD_drop (0xFD :: 0xFD :: 0x02 :: n :: (idB1 ++ m :: (pwB1 ++ rest)))
      (5 + n + m) 0
    rw [hd1] at h
    simpa using h.symm
  have hg2 : (0xFD :: 0xFD :: 0x02 :: n :: (idB2 ++ m :: (pwB2 ++ rest))).getD (5 + n + m) 0
      = rest.getD 0 0 := by
    have h := getD_drop (0xFD :: 0xFD :: 0x02 :: n :: (idB2 ++ m :: (pwB2 ++ rest)))
      (5 + n + m) 0
    rw [hd2] at h
    simpa using h.symm
  unfold parseResponse
  rw [headerStart_shape n m idB1 pwB1 rest h1 h3,
    headerStart_shape n m idB2 pwB2 rest h2 h4]
  dsimp only
  rw [hL1, hL2, hg1, hg2]
  rw [parseFields_congr _ _ (5 + n + m + 1) [] (hL1.trans hL2.symm) (by
    rw [drop_add _ (5 + n + m) 1, drop_add _ (5 + n + m) 1, hd1, hd2])]

/-- C10, witness: two concrete streams differing only in the one id byte
and the one password byte parse to the same map. -/
theorem c10_witness :
    parseResponse (0xFD :: 0xFD :: 0x02 :: 1 :: ([170] ++ 1 :: ([16] ++ [6, 1, 2, 153, 153])))
      = parseResponse (0xFD :: 0xFD :: 0x02 :: 1 :: ([187] ++ 1 :: ([32] ++ [6, 1, 2, 153, 153]))) :=
  c10_parser_ignores_credentials 1 1 [170] [187] [16] [32] [6, 1, 2, 153, 153]
    rfl rfl rfl rfl

/-- C2, counterexample: with id "A1" and password "é" the encoder emits no
id length byte at all (the id bytes 65, 49 follow the fixed 0x10 marker
directly) and the password length byte is 1, the character count, not the
UTF-8 byte count 2 claimed by the spec; the emitted header differs from the
layout the claim describes. -/
theorem c2_counterexample :
    loginTokens "A1" "é" = [253, 253, 2, 16, 65, 49, 1, 195, 169] ∧
      specLoginTokens "A1" "é" = [253, 253, 2, 16, 2, 65, 49, 2, 195, 169] ∧
      loginTokens "A1" "é" ≠ specLoginTokens "A1" "é" := by
  refine ⟨by decide, by decide, by decide⟩

/-- C2, amended: the encoded header is the 2-byte prefix, the protocol
type, the fixed size-class byte 0x10, then the id's UTF-8 bytes with NO id
length byte, then a password length byte equal to the password's character
count (equal to the UTF-8 byte count only for 1-byte characters), then the
password's UTF-8 bytes; stated for passwords of fewer than 256 characters,
for which the length field is a single byte. -/
theorem c2_login_layout (idnum password : String) (h : password.length < 256) :
    loginTokens idnum password
      = [0xFD, 0xFD, 0x02, 0x10] ++ utf8Bytes idnum
          ++ [password.length] ++ utf8Bytes password := by
  unfold loginTokens loginNibbles
  rw [lenField_eq _ h]
  rw [show [password.length / 16, password.length % 16]
        = nibblesOfBytes [password.length] from by simp [nibblesOfBytes]]
  rw [List.append_assoc, List.append_assoc]
  rw [pairUp_nib_append, pairUp_nib_append, pairUp_nib_append, pairUp_nib]
  simp

/-- C2, witness for the amended layout at concrete credentials. -/
theorem c2_witness :
    ("pw" : String).length < 256 ∧
      loginTokens "A1" "pw" = [253, 253, 2, 16, 65, 49, 2, 112, 119] := by
  refine ⟨by decide, ?_⟩
  exact (c2_login_layout "A1" "pw" (by decide)).trans (by decide)

/-- C7, counterexample: an id of 256 UTF-8 bytes (far over the claimed
255-byte limit) is encoded without any error: the encoder has no size
check and produces a full 266-token packet, contradicting the claim that
encoding fails with an EncodingError and produces no wire bytes. -/
theorem c7_counterexample :
    (utf8Bytes (String.mk (List.replicate 256 'a'))).length = 256 ∧
      (packetTokens (String.mk (List.replicate 256 'a')) "pw" 1 []).length = 266 := by
  constructor
  · set_option maxRecDepth 16000 in decide
  · set_option maxRecDepth 16000 in decide

/-- C7, amended: packet encoding is total and performs no size validation:
for every id, password, function byte and payload it produces a nonempty
token list (an oversized id is embedded with no length record of its own;
a password of 256 or more characters widens the length field instead of
failing). -/
theorem c7_encode_never_fails (idnum password : String) (func : Nat)
    (data : List Nat) :
    0 < (packetTokens idnum password func data).length := by
  unfold packetTokens buildPacketNibbles loginNibbles
  rw [show nibblesOfBytes [0xFD, 0xFD, 0x02, 0x10]
        = 15 :: 13 :: (nibblesOfBytes [0xFD, 0x02, 0x10]) from by
      simp [nibblesOfBytes]]
  simp only [List.cons_append, List.append_assoc]
  rw [pairUp]
  simp

lemma body_nibbles (idnum password : String) (func : Nat) (data : List Nat)
    (hlen : password.length < 256) :
    loginNibbles idnum password ++ nibblesOfBytes [func] ++ nibblesOfBytes data
      = nibblesOfBytes ([0xFD, 0xFD, 0x02, 0x10] ++ utf8Bytes idnum
          ++ [password.length] ++ utf8Bytes password ++ [func] ++ data) := by
  unfold loginNibbles
  rw [lenField_eq _ hlen]
  rw [show [password.length / 16, password.length % 16]
        = nibblesOfBytes [password.length] from by simp [nibblesOfBytes]]
  simp [nibblesOfBytes, List.append_assoc]

lemma packetTokens_split (idnum password : String) (func : Nat) (data : List Nat)
    (hlen : password.length < 256) :
    packetTokens idnum password func data
      = ([0xFD, 0xFD, 0x02, 0x10] ++ utf8Bytes idnum
          ++ [password.length] ++ utf8Bytes password ++ [func] ++ data)
        ++ pairUp (checksumOfNib (nibblesOfBytes
            ([0xFD, 0xFD, 0x02, 0x10] ++ utf8Bytes idnum
              ++ [password.length] ++ utf8Bytes password ++ [func] ++ data))) := by
  simp only [packetTokens, buildPacketNibbles]
  rw [body_nibbles idnum password func data hlen]
  rw [pairUp_nib_append]

/-- C1, counterexample: with in-limit credentials id "A1" (2 bytes) and
password "pw", the decoded stream of the encoded packet does NOT pass the
header checks: the parser reads the fixed 0x10 byte as the id length and
skips 16 bytes, landing beyond the 14-token packet, so the password-skip
read is an uncaught IndexError. -/
theorem c1_counterexample :
    headerStart (packetTokens "A1" "pw" 1 [1, 2]) = .error .indexErr := by
  decide

/-- C1, amended: the round trip holds exactly when the id serializes to 16
UTF-8 bytes (the fixed size-class byte 0x10 doubles as the id length the
parser reads) and the password's character count equals its UTF-8 byte
count (it is ASCII) and is below 256: then for every function byte and
payload the decoded stream of the encoded packet passes the prefix and
protocol checks, both credential skips land correctly (headerStart returns
the function-byte index 21 + password length), and checksum verification
succeeds. -/
theorem c1_roundtrip_sixteen_byte_id (idnum password : String) (func : Nat)
    (data : List Nat)
    (hid : (utf8Bytes idnum).length = 16)
    (hpw : (utf8Bytes password).length = password.length)
    (hlen : password.length < 256) :
    headerStart (packetTokens idnum password func data)
        = .ok (21 + password.length) ∧
      verifyChecksum (packetTokens idnum password func data) = true := by
  rw [packetTokens_split idnum password func data hlen]
  set B := [0xFD, 0xFD, 0x02, 0x10] ++ utf8Bytes idnum
      ++ [password.length] ++ utf8Bytes password ++ [func] ++ data with hB
  set ck := pairUp (checksumOfNib (nibblesOfBytes B)) with hck
  have hck_len : ck.length = 2 := pairUp_length_of_four _ (checksumOfNib_length _)
  constructor
  · have hshape : B ++ ck
        = 0xFD :: 0xFD :: 0x02 :: 16 :: (utf8Bytes idnum
            ++ password.length :: (utf8Bytes password ++ (func :: (data ++ ck)))) := by
      simp [hB, List.append_assoc]
    rw [hshape]
    rw [headerStart_shape 16 password.length (utf8Bytes idnum) (utf8Bytes password)
      _ hid hpw]
  · unfold verifyChecksum
    have hlenB : (B ++ ck).length - 2 = B.length := by
      simp [hck_len]
    rw [hlenB]
    rw [List.take_left, List.drop_left]
    rw [show nibblesOfBytes ck = checksumOfNib (nibblesOfBytes B) from
      nib_pairUp_of_four _ (checksumOfNib_length _) (checksumOfNib_lt16 _)]
    simp

/-- C1, witness: a concrete 16-byte id and ASCII password give a packet
whose decoded stream passes the header phase and checksum verification. -/
theorem c1_witness :
    (utf8Bytes "0123456789ABCDEF").length = 16 ∧
      headerStart (packetTokens "0123456789ABCDEF" "pw" 1 [1, 2]) = .ok 23 ∧
      verifyChecksum (packetTokens "0123456789ABCDEF" "pw" 1 [1, 2]) = true := by
  have h := c1_roundtrip_sixteen_byte_id "0123456789ABCDEF" "pw" 1 [1, 2]
    (by decide) (by decide) (by decide)
  exact ⟨by decide, h.1.trans (by decide), h.2⟩

/-- Modelled from the spec: a concrete DIRECTIONS table used as the input
of closed counterexamples and witnesses, consistent with the spec's
description (a fixed table from raw codes to the domain names forward /
alternating / reverse; the real table lives in const.py, which is not in
the sources).  The theorems about the translator quantify over arbitrary
tables; this table only instantiates them. -/
def dirsExample : List (String × String) :=
  [("00", "forward"), ("01", "alternating"), ("02", "reverse")]

/-- C5, counterexample: a field map holding the empty value the parser
records for an invalid-command marker under the speed command: the
translator raises an uncaught ValueError from int("", 16) instead of
returning a status record (the try around the speed lookup only catches
KeyError).  The failure is independent of the direction table. -/
theorem c5_counterexample :
    translateResponse dirsExample "alternating" [(2, [])] = .error .valueErr := by
  decide

/-- C5, amended: the translator returns a status record for every field
map whose speed field, when present, is nonempty; all missing or unknown
keys degrade to their defaults without an uncaught error.  The empty
speed value is the single exception to the claim. -/
theorem c5_translate_total_unless_empty_speed (dirs : List (String × String))
    (alt : String) (d : List (Nat × List Nat))
    (h : dlookup d 2 ≠ some []) :
    ∃ st, translateResponse dirs alt d = .ok st := by
  unfold translateResponse
  cases hs : dlookup d 2 with
  | none =>
    simp only [hs]
    exact ⟨_, rfl⟩
  | some bs =>
    have hbs : bs.isEmpty = false := by
      cases bs with
      | nil => exact absurd hs h
      | cons a t => rfl
    simp only [hs, hbs]
    exact ⟨_, rfl⟩

/-- C5, witness for the amended theorem at the empty field map. -/
theorem c5_witness :
    dlookup [] 2 ≠ some [] ∧
      ∃ st, translateResponse dirsExample "alternating" [] = .ok st :=
  ⟨by decide,
    c5_translate_total_unless_empty_speed dirsExample "alternating" [] (by decide)⟩

/-- C6, counterexample: a field map lacking the on/off, direction and mode
fields for which the translator does NOT return the default record: its
speed field carries the empty value of an invalid-command marker, so
translation raises an uncaught ValueError instead. -/
theorem c6_counterexample :
    translateResponse dirsExample "alternating" [(9, [1]), (2, [])]
      = .error .valueErr := by
  decide

/-- C6, amended: for every field map lacking the on/off, direction and
mode fields and whose speed field, if present, is nonempty, the translator
returns is_on = false, direction = none, oscillating = true, mode = auto,
and the speed is int(value, 16) rendered via the {:02} format (zero-padded
to AT LEAST two digits — three digits for values of 100 or more), with
"00" when the speed field is absent. -/
theorem c6_default_degradation (dirs : List (String × String)) (alt : String)
    (d : List (Nat × List Nat))
    (h1 : dlookup d 1 = none) (hB7 : dlookup d 0xB7 = none)
    (h7 : dlookup d 7 = none) :
    (dlookup d 2 = none →
      translateResponse dirs alt d = .ok ⟨false, "00", true, none, .auto⟩) ∧
    (∀ bs, dlookup d 2 = some bs → bs ≠ [] →
      translateResponse dirs alt d
        = .ok ⟨false, decPad2 (hexVal bs), true, none, .auto⟩) := by
  constructor
  · intro hs
    simp [translateResponse, h1, hB7, h7, hs]
  · intro bs hs hne
    have hbs : bs.isEmpty = false := by
      cases bs with
      | nil => exact absurd rfl hne
      | cons a t => rfl
    simp [translateResponse, h1, hB7, h7, hs, hbs]

/-- C6, witness: a map holding only a nonempty speed value translates to
the default record with the rendered speed. -/
theorem c6_witness :
    translateResponse dirsExample "alternating" [(2, [5])]
      = .ok ⟨false, "05", true, none, .auto⟩ := by
  have h := (c6_default_degradation dirsExample "alternating" [(2, [5])]
    (by decide) (by decide) (by decide)).2 [5] (by decide) (by decide)
  exact h.trans (by decide)

lemma modeLookup_eq_none (bs : List Nat) (h1 : bs ≠ [1]) (h2 : bs ≠ [2]) :
    modeLookup bs = none := by
  have e1 : (([1] : List Nat) == bs) = false := beq_eq_false_iff_ne.mpr (Ne.symm h1)
  have e2 : (([2] : List Nat) == bs) = false := beq_eq_false_iff_ne.mpr (Ne.symm h2)
  simp [modeLookup, MODES, e1, e2]

/-- C9: whenever translation succeeds, a mode field with value "01" maps
to sleep, never auto — the MODES dict literal's MODE_OFF entry for key
"01" is shadowed by the later MODE_SLEEP entry — and mode is auto exactly
when the mode field is absent or its value is outside {"01", "02"}. -/
theorem c9_mode_shadowing (dirs : List (String × String)) (alt : String)
    (d : List (Nat × List Nat)) (st : FanState)
    (h : translateResponse dirs alt d = .ok st) :
    (dlookup d 7 = some [1] → st.mode = .sleep) ∧
      (st.mode = .auto ↔
        dlookup d 7 = none ∨
          ∃ bs, dlookup d 7 = some bs ∧ bs ≠ [1] ∧ bs ≠ [2]) := by
  have hmode : st.mode = (match dlookup d 7 with
      | none => FanMode.auto
      | some bs => (modeLookup bs).getD FanMode.auto) := by
    unfold translateResponse at h
    cases hs : dlookup d 2 with
    | none =>
      simp only [hs] at h
      rw [Except.ok.injEq] at h
      rw [← h]
    | some bs =>
      cases bs with
      | nil => simp [hs] at h
      | cons a t =>
        simp only [hs] at h
        rw [if_neg (by simp : ¬ ((a :: t).isEmpty = true))] at h
        dsimp only at h
        rw [Except.ok.injEq] at h
        rw [← h]
  constructor
  · intro h7
    rw [hmode, h7]
    rfl
  · rw [hmode]
    cases h7 : dlookup d 7 with
    | none => simp
    | some bs =>
      simp only [Option.some.injEq]
      constructor
      · intro hAuto
        by_cases b1 : bs = [1]
        · rw [b1] at hAuto
          exact absurd hAuto (by decide)
        · by_cases b2 : bs = [2]
          · rw [b2] at hAuto
            exact absurd hAuto (by decide)
          · exact Or.inr ⟨bs, rfl, b1, b2⟩
      · rintro (hc | ⟨bs2, hbs2, hne1, hne2⟩)
        · exact absurd hc (by simp)
        · cases hbs2
          rw [modeLookup_eq_none bs hne1 hne2]
          rfl

/-- C9, witness: a map whose mode field is "01" translates with mode
sleep. -/
theorem c9_witness :
    translateResponse dirsExample "alternating" [(7, [1])]
        = .ok ⟨false, "00", true, none, .sleep⟩ ∧
      (⟨false, "00", true, none, FanMode.sleep⟩ : FanState).mode = .sleep := by
  refine ⟨by decide, ?_⟩
  exact (c9_mode_shadowing dirsExample "alternating" [(7, [1])]
    ⟨false, "00", true, none, .sleep⟩ (by decide)).1 (by decide)

/-- C8: the speed method raises (the spec's ValidationError) for every
speed outside FAN_SPEEDS before any transport is touched — the model
returns the would-be command string only on success; and the direction
method accepts exactly the keys (raw codes) and values (domain names) of
DIRECTIONS, raising for anything else before I/O. -/
theorem c8_validate_before_transport (fanSpeeds : List String)
    (dirs : List (String × String)) (s t : String) :
    (s ∉ fanSpeeds → speedRequest fanSpeeds s = .error .badSpeed) ∧
    (t ∉ dirs.map (fun p => p.1) → t ∉ dirs.map (fun p => p.2) →
      dirRequest dirs t = .error .badDirection) ∧
    ((t ∈ dirs.map (fun p => p.1) ∨ t ∈ dirs.map (fun p => p.2)) →
      ∃ c, dirRequest dirs t = .ok c) := by
  refine ⟨?_, ?_, ?_⟩
  · intro h
    have hc : fanSpeeds.contains s = false := by
      simpa using h
    unfold speedRequest
    rw [hc]
    rfl
  · intro hk hv
    have hfind : dirs.find? (fun p => p.2 == t) = none := by
      rw [List.find?_eq_none]
      intro p hp
      have hm : p.2 ∈ dirs.map (fun q => q.2) := List.mem_map_of_mem _ hp
      simp only [beq_iff_eq]
      intro he
      exact hv (he ▸ hm)
    have hc : (dirs.map (fun p => p.1)).contains t = false := by
      simpa using hk
    unfold dirRequest
    rw [hfind]
    dsimp only
    rw [hc]
    rfl
  · intro hor
    by_cases hv : ∃ p ∈ dirs, p.2 = t
    · obtain ⟨p0, hp0, hpt⟩ := hv
      have hsome : (dirs.find? (fun p => p.2 == t)).isSome := by
        rw [List.find?_isSome]
        exact ⟨p0, hp0, by simpa using hpt⟩
      obtain ⟨q, hq⟩ := Option.isSome_iff_exists.mp hsome
      have hqmem : q ∈ dirs := List.mem_of_find?_eq_some hq
      have hkey : (dirs.map (fun p => p.1)).contains q.1 = true := by
        have hm : q.1 ∈ dirs.map (fun p => p.1) := List.mem_map_of_mem _ hqmem
        simpa using hm
      unfold dirRequest
      rw [hq]
      dsimp only
      rw [hkey]
      exact ⟨_, rfl⟩
    · have hfind : dirs.find? (fun p => p.2 == t) = none := by
        rw [List.find?_eq_none]
        intro p hp
        simp only [beq_iff_eq]
        intro he
        exact hv ⟨p, hp, he⟩
      have ht : t ∈ dirs.map (fun p => p.1) := by
        rcases hor with h | h
        · exact h
        · exfalso
          obtain ⟨p, hp, hpt⟩ := List.mem_map.mp h
          exact hv ⟨p, hp, hpt⟩
      have hc : (dirs.map (fun p => p.1)).contains t = true := by
        simpa using ht
      unfold dirRequest
      rw [hfind]
      dsimp only
      rw [hc]
      exact ⟨_, rfl⟩

/-- C8, witness: a speed outside the table raises; a domain direction name
is accepted. -/
theorem c8_witness :
    speedRequest ["01"] "05" = .error .badSpeed ∧
      ∃ c, dirRequest dirsExample "alternating" = .ok c := by
  have h := c8_validate_before_transport ["01"] dirsExample "05" "alternating"
  exact ⟨h.1 (by decide), h.2.2 (Or.inr (by decide))⟩

end Twinfresh
